import Mathlib

/-!
Verification of the APIGateway three-service system (Gateway, CommentStore
a.k.a. CommentService, ContentFilter a.k.a. CensorService) against its
specification.  Go strings are modelled as lists of bytes (`List Nat`),
matching the byte-wise string operations the CensorService implements.
Machine integers are modelled as `Int` (identifiers stay far from any
overflow boundary in the scenarios considered).
-/

/- ===================== ContentFilter (censor-service) ===================== -/

/-- Byte-level translation of the censor service's `toLower`: iterate over
the bytes, mapping `'A'..'Z'` (65..90) to lowercase by adding 32 and
appending to the accumulated result, exactly as the Go loop does. -/
def toLower (s : List Nat) : List Nat :=
  s.foldl (fun result c => result ++ [if 65 ≤ c ∧ c ≤ 90 then c + 32 else c]) []

/-- The inner loop of the censor service's `contains`: compare
`substr` against `s` starting at offset `i`, byte by byte. -/
def matchAt (s substr : List Nat) (i : Nat) : Bool :=
  (List.range substr.length).all fun j => s.getD (i + j) 0 == substr.getD j 0

/-- Translation of the censor service's brute-force `contains`:
empty pattern always matches, a pattern longer than the text never does,
otherwise try every admissible offset. -/
def contains (s substr : List Nat) : Bool :=
  if substr.length = 0 then true
  else if substr.length > s.length then false
  else (List.range (s.length - substr.length + 1)).any fun i => matchAt s substr i

/-- Translation of `containsIgnoreCase`: lowercase both operands and search. -/
def containsIgnoreCase (s substr : List Nat) : Bool :=
  contains (toLower s) (toLower substr)

/-- UTF-8 bytes of the prohibited word "qwerty". -/
def qwertyBytes : List Nat := [113, 119, 101, 114, 116, 121]

/-- UTF-8 bytes of the prohibited word "йцукен" (lowercase Cyrillic). -/
def ycukenBytes : List Nat := [208, 185, 209, 134, 209, 131, 208, 186, 208, 181, 208, 189]

/-- UTF-8 bytes of the prohibited word "zxvbnm". -/
def zxvbnmBytes : List Nat := [122, 120, 118, 98, 110, 109]

/-- The fixed denylist of the censor service, in source order. -/
def prohibitedWords : List (List Nat) := [qwertyBytes, ycukenBytes, zxvbnmBytes]

/-- Translation of `containsProhibitedWords`: the text is prohibited when
some denylisted word occurs in it case-insensitively. -/
def containsProhibitedWords (text : List Nat) : Bool :=
  prohibitedWords.any fun word => containsIgnoreCase text word

/-- The `/check` handler of the censor service on a decoded body
(`none` models undecodable JSON): status code paired with the body text. -/
def checkHandler (body : Option (List Nat)) : Nat × String :=
  match body with
  | none => (400, "Invalid JSON")
  | some text =>
    if containsProhibitedWords text then (400, "Text contains prohibited content")
    else (200, "Text passed censorship check")

/-- UTF-8 bytes of "ЙЦУКЕН", the uppercase Cyrillic form of the
denylisted word "йцукен". -/
def ycukenUpperBytes : List Nat := [208, 153, 208, 166, 208, 163, 208, 154, 208, 149, 208, 157]

/-- Spec-side notion of lowercasing, written from the specification's words
("after lowercasing both the input and each denylisted term"), which read as
genuine case folding over the alphabets the denylist uses: it lowers ASCII
letters and, decoding two-byte UTF-8 sequences, the Cyrillic capitals
А..Я (U+0410..U+042F); every other byte is left unchanged.  It exists only
to compare the specified behaviour with the implemented `toLower`. -/
def specUnicodeLower : List Nat → List Nat
  | [] => []
  | 208 :: b :: rest =>
    if 144 ≤ b ∧ b ≤ 159 then 208 :: (b + 32) :: specUnicodeLower rest
    else if 160 ≤ b ∧ b ≤ 175 then 209 :: (b - 32) :: specUnicodeLower rest
    else 208 :: specUnicodeLower (b :: rest)
  | c :: rest =>
    if 65 ≤ c ∧ c ≤ 90 then (c + 32) :: specUnicodeLower rest
    else c :: specUnicodeLower rest

/- ===================== CommentStore (comment-service) ===================== -/

/-- The comment record of the comment service: id, news key, optional
parent comment key, text (text kept as bytes, matching the wire payload). -/
structure Comment where
  id : Int
  newsID : Int
  parentID : Option Int
  text : List Nat
  deriving DecidableEq, Repr

/-- The decoded body of a create-comment request. -/
structure CreateCommentRequest where
  newsID : Int
  parentID : Option Int
  text : List Nat
  deriving DecidableEq, Repr

/-- The comment service's process state: the global `comments` slice and
the global `nextID` counter. -/
structure StoreState where
  comments : List Comment
  nextID : Int
  deriving DecidableEq, Repr

/-- The comment service's state at process start: empty slice, counter 1. -/
def initialStore : StoreState := ⟨[], 1⟩

/-- The create path of `createCommentHandler`: build the comment with the
current counter value, append it to the slice, increment the counter;
return the created comment together with the new state. -/
def createComment (req : CreateCommentRequest) (s : StoreState) : Comment × StoreState :=
  let comment : Comment := ⟨s.nextID, req.newsID, req.parentID, req.text⟩
  (comment, ⟨s.comments ++ [comment], s.nextID + 1⟩)

/-- `createCommentHandler` on a decoded body: respond 200 with the created
comment's id, threading the store state. -/
def createCommentHandler (req : CreateCommentRequest) (s : StoreState) :
    (Nat × Int) × StoreState :=
  let (comment, s') := createComment req s
  ((200, comment.id), s')

/-- The filtering loop of `getCommentsHandler`: keep the stored comments
whose news key equals the requested one, in slice order. -/
def getComments (k : Int) (s : StoreState) : List Comment :=
  s.comments.filter fun c => c.newsID == k

/-- The `news_id` query parameter as the handler sees it: absent, present
but not an integer, or an integer. -/
inductive NewsIDParam where
  | missing : NewsIDParam
  | invalid : NewsIDParam
  | valid : Int → NewsIDParam
  deriving DecidableEq

/-- `getCommentsHandler`: 400 on a missing or non-integer `news_id`,
otherwise 200 with the filtered comments. -/
def getCommentsHandler (p : NewsIDParam) (s : StoreState) : Nat × Option (List Comment) :=
  match p with
  | .missing => (400, none)
  | .invalid => (400, none)
  | .valid k => (200, some (getComments k s))

/-- Run a sequence of create requests against the store, collecting the
ids returned to the callers. -/
def runCreates (reqs : List CreateCommentRequest) (s : StoreState) :
    List Int × StoreState :=
  match reqs with
  | [] => ([], s)
  | r :: rest =>
    let (comment, s') := createComment r s
    let (ids, s'') := runCreates rest s'
    (comment.id :: ids, s'')

/-- The comments a run of creates builds when the counter starts at `n`:
request `i` of the list receives id `n + i`. -/
def assignedComments (n : Int) : List CreateCommentRequest → List Comment
  | [] => []
  | r :: rest => ⟨n, r.newsID, r.parentID, r.text⟩ :: assignedComments (n + 1) rest

/- ============ CommentStore without synchronization (as written) ============ -/

/-- One in-flight create request of the comment service, split at the
granularity of its shared-memory accesses: pc 0 reads `nextID` into the
comment literal, pc 1 appends to the `comments` slice, pc 2 increments
`nextID`, pc 3 is done.  The Go handler takes no lock around these steps. -/
structure CreateTask where
  req : CreateCommentRequest
  pc : Nat
  localID : Int
  deriving DecidableEq, Repr

/-- Execute one step of an in-flight create against the shared state. -/
def stepCreateTask (s : StoreState) (t : CreateTask) : StoreState × CreateTask :=
  match t.pc with
  | 0 => (s, ⟨t.req, 1, s.nextID⟩)
  | 1 => (⟨s.comments ++ [⟨t.localID, t.req.newsID, t.req.parentID, t.req.text⟩], s.nextID⟩,
          ⟨t.req, 2, t.localID⟩)
  | 2 => (⟨s.comments, s.nextID + 1⟩, ⟨t.req, 3, t.localID⟩)
  | _ => (s, t)

/-- Run an interleaving: the schedule names, step by step, which in-flight
create performs its next shared-memory access. -/
def runSchedule (sched : List Nat) (s : StoreState) (ts : List CreateTask) :
    StoreState × List CreateTask :=
  match sched with
  | [] => (s, ts)
  | i :: rest =>
    match ts[i]? with
    | none => runSchedule rest s ts
    | some t =>
      let (s', t') := stepCreateTask s t
      runSchedule rest s' (ts.set i t')

/- ===================== Gateway (api-gateway) ===================== -/

/-- Outcome of one downstream HTTP exchange with a decoded body of type
`α`: transport-level failure (connection refused, timeout), or a response
with a status code and body. -/
inductive HttpResult (α : Type) where
  | netFail : HttpResult α
  | response : Nat → α → HttpResult α
  deriving DecidableEq

/-- What the gateway sends downstream, minus the correlation header. -/
inductive CallPayload where
  | checkText : List Nat → CallPayload
  | saveComment : Int → Option Int → List Nat → CallPayload
  | listComments : Int → CallPayload
  deriving DecidableEq

/-- One downstream call the gateway issues: the payload plus the
`X-Request-ID` header value attached to it. -/
structure DownstreamCall where
  payload : CallPayload
  requestID : String
  deriving DecidableEq

/-- Whether a downstream call is a CommentStore create. -/
def isSaveCall (call : DownstreamCall) : Bool :=
  match call.payload with
  | .saveComment _ _ _ => true
  | _ => false

/-- The effect of the gateway's downstream calls on the comment service's
state: save calls run the store's create path, the other calls touch no
store state. -/
def applyCalls (calls : List DownstreamCall) (s : StoreState) : StoreState :=
  match calls with
  | [] => s
  | call :: rest =>
    match call.payload with
    | .saveComment newsID parentID text =>
      applyCalls rest (createComment ⟨newsID, parentID, text⟩ s).2
    | _ => applyCalls rest s

/-- `validateCommentWithCensorService` seen from its caller: the call
errors on transport failure, on a 400 (content rejected), and on any
other non-200 status; only a 200 passes. -/
def validateCommentWithCensorService (resp : HttpResult Unit) : Bool :=
  match resp with
  | .netFail => false
  | .response status _ =>
    if status = 400 then false
    else if status ≠ 200 then false
    else true

/-- `saveCommentToService` seen from its caller: the call errors on
transport failure and on any status other than 200 or 201; the body
(carrying the id the store assigned) is never read. -/
def saveCommentToService (resp : HttpResult Int) : Bool :=
  match resp with
  | .netFail => false
  | .response status _ =>
    if status ≠ 200 ∧ status ≠ 201 then false else true

/-- The gateway's response to the client: status, body message, and the
id field of the success payload when present. -/
structure GatewayResponse where
  status : Nat
  message : String
  bodyID : Option Int
  deriving DecidableEq

/-- The gateway's `commentHandler` on a POST: decode the body (`none`
models bad JSON), validate the text with the censor service, then save via
the comment service; returns the client response and the downstream calls
issued, each carrying the request id. -/
def commentHandler (body : Option Comment) (rid : String)
    (censorResp : HttpResult Unit) (storeResp : HttpResult Int) :
    GatewayResponse × List DownstreamCall :=
  match body with
  | none => (⟨400, "Invalid JSON", none⟩, [])
  | some comment =>
    let checkCall : DownstreamCall := ⟨.checkText comment.text, rid⟩
    if validateCommentWithCensorService censorResp then
      let saveCall : DownstreamCall := ⟨.saveComment comment.newsID comment.parentID comment.text, rid⟩
      if saveCommentToService storeResp then
        (⟨200, "Comment created successfully", some 1⟩, [checkCall, saveCall])
      else
        (⟨500, "Failed to save comment", none⟩, [checkCall, saveCall])
    else
      (⟨400, "Comment contains prohibited content", none⟩, [checkCall])

/-- `getCommentsForNews` seen from its caller: `none` on transport
failure, on a non-200 status, or on an undecodable body (inner `none`);
otherwise the decoded comment list. -/
def getCommentsForNews (resp : HttpResult (Option (List Comment))) :
    Option (List Comment) :=
  match resp with
  | .netFail => none
  | .response status body =>
    if status ≠ 200 then none
    else body

/-- The gateway's news-detail response: status, the (mocked) news item's
id, and the comment list. -/
structure NewsDetailResponse where
  status : Nat
  newsID : Int
  comments : List Comment
  deriving DecidableEq

/-- The gateway's `newsDetailHandler` on a GET with a well-parsed numeric
id: fetch the comments from the comment service; on any failure continue
with an empty comments array; always respond 200 with the mocked news. -/
def newsDetailHandler (newsID : Int) (rid : String)
    (listResp : HttpResult (Option (List Comment))) :
    NewsDetailResponse × List DownstreamCall :=
  let call : DownstreamCall := ⟨.listComments newsID, rid⟩
  match getCommentsForNews listResp with
  | none => (⟨200, newsID, []⟩, [call])
  | some comments => (⟨200, newsID, comments⟩, [call])

/-- The logging middleware's request-id choice: keep the inbound
`X-Request-ID` header when non-empty, otherwise use the freshly generated
token. -/
def effectiveRequestID (header : String) (fresh : String) : String :=
  if header = "" then fresh else header

/- ===================== helper lemmas about the matcher ===================== -/

/-- `toLower` is the per-byte map sending 65..90 to +32. -/
theorem toLower_eq_map (s : List Nat) :
    toLower s = s.map fun c => if 65 ≤ c ∧ c ≤ 90 then c + 32 else c := by
  have general :
      ∀ (t acc : List Nat),
        t.foldl (fun result c => result ++ [if 65 ≤ c ∧ c ≤ 90 then c + 32 else c]) acc
          = acc ++ t.map fun c => if 65 ≤ c ∧ c ≤ 90 then c + 32 else c := by
    intro t
    induction t with
    | nil => intro acc; simp
    | cons c rest ih =>
      intro acc
      simp [List.foldl_cons, ih, List.append_assoc]
  simpa [toLower] using general s []

theorem matchAt_iff (s substr : List Nat) (i : Nat) (hle : i + substr.length ≤ s.length) :
    matchAt s substr i = true ↔ (s.drop i).take substr.length = substr := by
  unfold matchAt
  rw [List.all_eq_true]
  constructor
  · intro h
    apply List.ext_getElem
    · rw [List.length_take, List.length_drop]
      omega
    · intro j hj1 hj2
      have hjlen : j < substr.length := hj2
      have hmem : j ∈ List.range substr.length := List.mem_range.mpr hjlen
      have hj := h j hmem
      have hgetD : s.getD (i + j) 0 = substr.getD j 0 := by
        exact beq_iff_eq.mp hj
      have hij : i + j < s.length := by omega
      have hdj : j < (s.drop i).length := by
        rw [List.length_drop]; omega
      rw [List.getElem_take, List.getElem_drop]
      have h1 : s.getD (i + j) 0 = s[i + j] := List.getD_eq_getElem s 0 hij
      have h2 : substr.getD j 0 = substr[j] := List.getD_eq_getElem substr 0 hjlen
      rw [h1, h2] at hgetD
      exact hgetD
  · intro h j hj
    have hjlen : j < substr.length := List.mem_range.mp hj
    have hij : i + j < s.length := by omega
    have hdj : j < (s.drop i).length := by rw [List.length_drop]; omega
    have htj : j < ((s.drop i).take substr.length).length := by
      rw [List.length_take, List.length_drop]; omega
    have hgl : ((s.drop i).take substr.length)[j] = substr[j] := by
      simp [h]
    rw [List.getElem_take, List.getElem_drop] at hgl
    have h1 : s.getD (i + j) 0 = s[i + j] := List.getD_eq_getElem s 0 hij
    have h2 : substr.getD j 0 = substr[j] := List.getD_eq_getElem substr 0 hjlen
    rw [h1, h2, hgl]
    exact beq_self_eq_true _

/-- The brute-force matcher decides substring occurrence: `contains s substr`
holds exactly when `s` splits as `t ++ substr ++ u`. -/
theorem contains_iff (s substr : List Nat) :
    contains s substr = true ↔ ∃ t u, s = t ++ substr ++ u := by
  unfold contains
  by_cases hz : substr.length = 0
  · have hnil : substr = [] := List.length_eq_zero.mp hz
    subst hnil
    constructor
    · intro h
      exact ⟨[], s, by simp⟩
    · intro h
      simp
  · by_cases hgt : substr.length > s.length
    · rw [if_neg hz, if_pos hgt]
      constructor
      · intro h; exact absurd h (by simp)
      · rintro ⟨t, u, rfl⟩
        exfalso
        simp [List.length_append] at hgt
        omega
    · rw [if_neg hz, if_neg hgt]
      rw [List.any_eq_true]
      constructor
      · rintro ⟨i, hi, hmatch⟩
        have hirange : i < s.length - substr.length + 1 := List.mem_range.mp hi
        have hle : i + substr.length ≤ s.length := by omega
        have hextract := (matchAt_iff s substr i hle).mp hmatch
        refine ⟨s.take i, s.drop (i + substr.length), ?_⟩
        have hdd : s.drop (i + substr.length) = (s.drop i).drop substr.length := by
          rw [List.drop_drop]
        have key : s = s.take i ++ ((s.drop i).take substr.length ++ (s.drop i).drop substr.length) := by
          rw [List.take_append_drop, List.take_append_drop]
        rw [hextract, ← hdd] at key
        rw [List.append_assoc]
        exact key
      · rintro ⟨t, u, rfl⟩
        refine ⟨t.length, ?_, ?_⟩
        · apply List.mem_range.mpr
          have hlen : (t ++ substr ++ u).length = t.length + (substr.length + u.length) := by
            simp
          omega
        · have hle : t.length + substr.length ≤ (t ++ substr ++ u).length := by
            simp [List.length_append]
          apply (matchAt_iff _ substr t.length hle).mpr
          rw [List.append_assoc, List.drop_left, List.take_left]

/- ===================== helper lemmas about the store ===================== -/

theorem runCreates_spec (reqs : List CreateCommentRequest) (cs : List Comment) (n : Int) :
    runCreates reqs ⟨cs, n⟩ =
      ((assignedComments n reqs).map Comment.id,
       ⟨cs ++ assignedComments n reqs, n + reqs.length⟩) := by
  induction reqs generalizing cs n with
  | nil => simp [runCreates, assignedComments]
  | cons r rest ih =>
    simp only [runCreates, createComment, assignedComments, ih, List.map_cons,
      Prod.mk.injEq, StoreState.mk.injEq, List.length_cons]
    refine ⟨trivial, ?_, ?_⟩
    · rw [List.append_assoc, List.singleton_append]
    · push_cast
      ring

theorem assignedComments_ids (n : Int) (reqs : List CreateCommentRequest) :
    (assignedComments n reqs).map Comment.id
      = (List.range reqs.length).map (fun i : Nat => n + (i : Int)) := by
  induction reqs generalizing n with
  | nil => simp [assignedComments]
  | cons r rest ih =>
    simp only [assignedComments, List.map_cons, List.length_cons,
      List.range_succ_eq_map, List.map_map]
    refine congrArg₂ _ (by simp) ?_
    rw [ih]
    apply List.map_congr_left
    intro i _
    simp [Function.comp]
    ring

theorem assignedComments_payloads (n : Int) (reqs : List CreateCommentRequest) :
    (assignedComments n reqs).map (fun c => (c.newsID, c.parentID, c.text))
      = reqs.map fun r => (r.newsID, r.parentID, r.text) := by
  induction reqs generalizing n with
  | nil => simp [assignedComments]
  | cons r rest ih =>
    simp [assignedComments, ih]

theorem assignedComments_ids_nodup (n : Int) (reqs : List CreateCommentRequest) :
    ((assignedComments n reqs).map Comment.id).Nodup := by
  rw [assignedComments_ids]
  apply List.Nodup.map
  · intro a b hab
    simpa using hab
  · exact List.nodup_range _

/- ===================== Claim theorems: CommentStore ===================== -/

/-- Claim C3: for every sequence of well-decoded create requests run from
process start, every create succeeds with status 200, the ids handed back
are 1, 2, 3, ... in order with no reuse, each comment is appended to the
in-memory sequence with exactly the id returned to its caller and the
payload it was created from, and the handler returns the assigned id. -/
theorem C3_create_assigns_sequential_ids (reqs : List CreateCommentRequest) :
    (runCreates reqs initialStore).1
        = (List.range reqs.length).map (fun i : Nat => 1 + (i : Int)) ∧
    (runCreates reqs initialStore).2.comments.map Comment.id
        = (runCreates reqs initialStore).1 ∧
    (runCreates reqs initialStore).2.nextID = 1 + reqs.length ∧
    ((runCreates reqs initialStore).2.comments.map fun c => (c.newsID, c.parentID, c.text))
        = (reqs.map fun r => (r.newsID, r.parentID, r.text)) ∧
    (runCreates reqs initialStore).1.Nodup ∧
    ∀ req s, createCommentHandler req s = ((200, s.nextID), (createComment req s).2) := by
  have hrun := runCreates_spec reqs [] 1
  rw [show initialStore = ⟨[], 1⟩ from rfl, hrun]
  refine ⟨?_, ?_, ?_, ?_, ?_, ?_⟩
  · simp [assignedComments_ids]
  · simp
  · simp
  · simp [assignedComments_payloads]
  · simp [assignedComments_ids_nodup]
  · intro req s
    rfl

/-- Claim C4: for every news key and store state, `getComments` returns
exactly the stored comments whose news key matches — each element matches,
the result is an order-preserving subsequence of the stored sequence,
every matching stored comment appears — the handler wraps it in a 200
(never an error), the result is empty when nothing matches, and appending
comments with other keys leaves the result unchanged. -/
theorem C4_listByNews_returns_matching_in_order (k : Int) (s : StoreState)
    (extra : List Comment) :
    getCommentsHandler (NewsIDParam.valid k) s = (200, some (getComments k s)) ∧
    (getComments k s).Sublist s.comments ∧
    (∀ c ∈ getComments k s, c.newsID = k) ∧
    (∀ c ∈ s.comments, c.newsID = k → c ∈ getComments k s) ∧
    ((∀ c ∈ s.comments, c.newsID ≠ k) → getComments k s = []) ∧
    ((∀ c ∈ extra, c.newsID ≠ k) →
      getComments k ⟨s.comments ++ extra, s.nextID⟩ = getComments k s) := by
  refine ⟨rfl, ?_, ?_, ?_, ?_, ?_⟩
  · exact List.filter_sublist s.comments
  · intro c hc
    have := List.of_mem_filter hc
    simpa using this
  · intro c hc hk
    apply List.mem_filter.mpr
    exact ⟨hc, by simpa using hk⟩
  · intro hnone
    apply List.filter_eq_nil_iff.mpr
    intro c hc
    simpa using hnone c hc
  · intro hextra
    show (s.comments ++ extra).filter (fun c => c.newsID == k) = _
    rw [List.filter_append]
    have hnil : extra.filter (fun c => c.newsID == k) = [] := by
      apply List.filter_eq_nil_iff.mpr
      intro c hc
      simpa using hextra c hc
    rw [hnil, List.append_nil]
    rfl

/- ===================== Claim theorems: ContentFilter ===================== -/

/-- Claim C10: the censor service's lowercasing is ASCII-only — `toLower`
maps each byte in 'A'..'Z' (65..90) to its lowercase counterpart and leaves
every other byte, including the bytes of multi-byte UTF-8 characters,
unchanged; consequently the case-insensitive search, and with it the filter
verdict, misses the uppercase Cyrillic form of the denylisted Cyrillic
term: "ЙЦУКЕН" is accepted. -/
theorem C10_toLower_ascii_only (s : List Nat) :
    toLower s = (s.map fun c => if 65 ≤ c ∧ c ≤ 90 then c + 32 else c) ∧
    containsIgnoreCase ycukenUpperBytes ycukenBytes = false ∧
    containsProhibitedWords ycukenUpperBytes = false ∧
    checkHandler (some ycukenUpperBytes) = (200, "Text passed censorship check") :=
  ⟨toLower_eq_map s, by decide, by decide, by decide⟩

/-- Claim C1 counterexample: "ЙЦУКЕН" is the denylisted term "йцукен"
written in uppercase letters — lowercasing it (in the spec's sense, i.e.
genuine case folding over the alphabets involved) yields exactly the
denylisted term, so the claim requires rejection — yet the filter
accepts it with 200. -/
theorem C1_counterexample :
    ycukenBytes ∈ prohibitedWords ∧
    specUnicodeLower ycukenUpperBytes = ycukenBytes ∧
    specUnicodeLower ycukenBytes = ycukenBytes ∧
    containsProhibitedWords ycukenUpperBytes = false ∧
    checkHandler (some ycukenUpperBytes) = (200, "Text passed censorship check") := by
  refine ⟨by decide, by decide, by decide, by decide, by decide⟩

/-- Claim C1 (amended): for every well-decoded input, the check rejects
with 400 exactly when, after applying the service's ASCII-only `toLower`
to both the input and a denylisted term, the term occurs in the input as
a contiguous substring; case-insensitivity therefore holds only over
ASCII letters, and a denylisted term occurring in a non-ASCII letter case
(such as uppercase Cyrillic) is not detected. -/
theorem C1_reject_iff_ascii_lowered_substring (text : List Nat) :
    (checkHandler (some text)).1 = 400 ↔
      ∃ w ∈ prohibitedWords, ∃ t u, toLower text = t ++ toLower w ++ u := by
  have hstep : (checkHandler (some text)).1 = 400 ↔ containsProhibitedWords text = true := by
    unfold checkHandler
    by_cases h : containsProhibitedWords text
    · simp [h]
    · simp [h]
  rw [hstep]
  unfold containsProhibitedWords
  rw [List.any_eq_true]
  constructor
  · rintro ⟨w, hw, hcontains⟩
    refine ⟨w, hw, ?_⟩
    exact (contains_iff (toLower text) (toLower w)).mp hcontains
  · rintro ⟨w, hw, hsplit⟩
    refine ⟨w, hw, ?_⟩
    exact (contains_iff (toLower text) (toLower w)).mpr hsplit

/- ===================== Claim theorems: Gateway ===================== -/

theorem validate_false_of_not_ok (censorResp : HttpResult Unit)
    (h : censorResp ≠ HttpResult.response 200 ()) :
    validateCommentWithCensorService censorResp = false := by
  cases censorResp with
  | netFail => rfl
  | response status body =>
    cases body
    unfold validateCommentWithCensorService
    by_cases h400 : status = 400
    · simp [h400]
    · have h200 : status ≠ 200 := by
        intro hEq
        exact h (by rw [hEq])
      simp [h400, h200]

/-- Claim C2: on a well-decoded comment-creation request, whenever the
censor call fails for any reason — transport failure, content rejection,
or any non-200 status — the gateway answers 400 with the same
rejection message in every case (so network failure is not distinguished
from rejection), issues no CommentStore create call, and the store's
state is left unchanged by the calls it does issue. -/
theorem C2_filter_failure_400_no_store_call (comment : Comment) (rid : String)
    (censorResp : HttpResult Unit) (storeResp : HttpResult Int) (s : StoreState)
    (h : censorResp ≠ HttpResult.response 200 ()) :
    (commentHandler (some comment) rid censorResp storeResp).1
        = ⟨400, "Comment contains prohibited content", none⟩ ∧
    (∀ call ∈ (commentHandler (some comment) rid censorResp storeResp).2,
      isSaveCall call = false) ∧
    applyCalls (commentHandler (some comment) rid censorResp storeResp).2 s = s := by
  have hval := validate_false_of_not_ok censorResp h
  unfold commentHandler
  rw [hval]
  refine ⟨rfl, ?_, rfl⟩
  intro call hcall
  simp only [Bool.false_eq_true, if_false, List.mem_singleton] at hcall
  rw [hcall]
  rfl

/-- Claim C2 witness: with the censor service unreachable, the gateway
answers 400 with the rejection message, no issued call is a store create,
and the store state is untouched. -/
theorem C2_witness :
    (commentHandler (some ⟨0, 1, none, [104, 105]⟩) "rid-1" HttpResult.netFail
        (HttpResult.response 200 7)).1
        = ⟨400, "Comment contains prohibited content", none⟩ ∧
    (∀ call ∈ (commentHandler (some ⟨0, 1, none, [104, 105]⟩) "rid-1" HttpResult.netFail
        (HttpResult.response 200 7)).2, isSaveCall call = false) ∧
    applyCalls (commentHandler (some ⟨0, 1, none, [104, 105]⟩) "rid-1" HttpResult.netFail
        (HttpResult.response 200 7)).2 initialStore = initialStore :=
  C2_filter_failure_400_no_store_call ⟨0, 1, none, [104, 105]⟩ "rid-1"
    HttpResult.netFail (HttpResult.response 200 7) initialStore (by decide)

/-- Claim C5: on a well-parsed news-detail request, whenever the comment
fetch fails for any reason — the comment service unreachable, a non-200
status, or an undecodable body — the gateway still answers 200 with the
news payload and an empty comments array. -/
theorem C5_comment_fetch_failure_degrades (newsID : Int) (rid : String)
    (listResp : HttpResult (Option (List Comment)))
    (h : listResp = HttpResult.netFail
        ∨ (∃ status body, listResp = HttpResult.response status body ∧ status ≠ 200)
        ∨ (∃ status, listResp = HttpResult.response status none)) :
    (newsDetailHandler newsID rid listResp).1 = ⟨200, newsID, []⟩ := by
  have hfail : getCommentsForNews listResp = none := by
    rcases h with rfl | ⟨status, body, rfl, hstatus⟩ | ⟨status, rfl⟩
    · rfl
    · simp [getCommentsForNews, hstatus]
    · by_cases hstatus : status = 200
      · simp [getCommentsForNews, hstatus]
      · simp [getCommentsForNews, hstatus]
  unfold newsDetailHandler
  rw [hfail]

/-- Claim C5 witness: with the comment service unreachable, the news-detail
response is 200 with an empty comments array. -/
theorem C5_witness :
    (newsDetailHandler 3 "rid-2" HttpResult.netFail).1 = ⟨200, 3, []⟩ :=
  C5_comment_fetch_failure_degrades 3 "rid-2" HttpResult.netFail (Or.inl rfl)

/-- Claim C6: on a well-decoded comment-creation request whose text passes
the censor check, whenever the store call fails — transport failure or any
status other than 200/201 — the gateway answers 500, and the downstream
calls are exactly one censor check followed by one store create: no retry
and no compensating action. -/
theorem C6_store_failure_500_no_retry (comment : Comment) (rid : String)
    (storeResp : HttpResult Int)
    (h : ∀ body : Int, storeResp ≠ HttpResult.response 200 body ∧
        storeResp ≠ HttpResult.response 201 body) :
    (commentHandler (some comment) rid (HttpResult.response 200 ()) storeResp).1
        = ⟨500, "Failed to save comment", none⟩ ∧
    (commentHandler (some comment) rid (HttpResult.response 200 ()) storeResp).2
        = [⟨CallPayload.checkText comment.text, rid⟩,
           ⟨CallPayload.saveComment comment.newsID comment.parentID comment.text, rid⟩] := by
  have hsave : saveCommentToService storeResp = false := by
    cases storeResp with
    | netFail => rfl
    | response status body =>
      have h200 : status ≠ 200 := by
        intro hEq
        exact (h body).1 (by rw [hEq])
      have h201 : status ≠ 201 := by
        intro hEq
        exact (h body).2 (by rw [hEq])
      simp [saveCommentToService, h200, h201]
  unfold commentHandler
  rw [hsave]
  exact ⟨rfl, rfl⟩

/-- Claim C6 witness: with the censor accepting and the comment service
answering 500, the gateway answers 500 and the call sequence is exactly
one check then one create. -/
theorem C6_witness :
    (commentHandler (some ⟨0, 2, some 5, [104]⟩) "rid-3" (HttpResult.response 200 ())
        (HttpResult.response 500 0)).1 = ⟨500, "Failed to save comment", none⟩ ∧
    (commentHandler (some ⟨0, 2, some 5, [104]⟩) "rid-3" (HttpResult.response 200 ())
        (HttpResult.response 500 0)).2
        = [⟨CallPayload.checkText [104], "rid-3"⟩,
           ⟨CallPayload.saveComment 2 (some 5) [104], "rid-3"⟩] :=
  C6_store_failure_500_no_retry ⟨0, 2, some 5, [104]⟩ "rid-3" (HttpResult.response 500 0)
    (fun body => ⟨by simp, by simp⟩)

/-- Claim C7: whenever the gateway's comment creation succeeds (status
200), the success payload carries the static placeholder identifier 1,
whatever identifier the comment service actually assigned and returned in
its response body. -/
theorem C7_success_returns_placeholder_id (body : Option Comment) (rid : String)
    (censorResp : HttpResult Unit) (storeResp : HttpResult Int)
    (h : (commentHandler body rid censorResp storeResp).1.status = 200) :
    (commentHandler body rid censorResp storeResp).1.bodyID = some 1 := by
  cases body with
  | none => simp [commentHandler] at h
  | some comment =>
    unfold commentHandler at h ⊢
    by_cases hval : validateCommentWithCensorService censorResp
    · by_cases hsave : saveCommentToService storeResp
      · simp [hval, hsave]
      · simp [hval, hsave] at h
    · simp [hval] at h

/-- Claim C7 witness: with the store assigning and returning id 42, the
success payload still carries id 1. -/
theorem C7_witness :
    (commentHandler (some ⟨0, 1, none, [104]⟩) "rid-4" (HttpResult.response 200 ())
        (HttpResult.response 200 42)).1.status = 200 ∧
    (commentHandler (some ⟨0, 1, none, [104]⟩) "rid-4" (HttpResult.response 200 ())
        (HttpResult.response 200 42)).1.bodyID = some 1 :=
  ⟨rfl, C7_success_returns_placeholder_id (some ⟨0, 1, none, [104]⟩) "rid-4"
    (HttpResult.response 200 ()) (HttpResult.response 200 42) rfl⟩

/-- Claim C8: the correlation id never affects control flow — for the
comment-creation and news-detail flows, runs that differ only in the
request id produce the identical client-visible response and the identical
downstream call sequence up to the `X-Request-ID` header; that header is
the run's own id on every downstream call, and the middleware keeps a
non-empty inbound header unchanged while substituting the fresh token only
when the header is absent (empty). -/
theorem C8_request_id_never_affects_control_flow (body : Option Comment)
    (rid rid2 : String) (censorResp : HttpResult Unit) (storeResp : HttpResult Int)
    (newsID : Int) (listResp : HttpResult (Option (List Comment)))
    (header fresh : String) :
    (commentHandler body rid censorResp storeResp).1
        = (commentHandler body rid2 censorResp storeResp).1 ∧
    (commentHandler body rid censorResp storeResp).2.map DownstreamCall.payload
        = (commentHandler body rid2 censorResp storeResp).2.map DownstreamCall.payload ∧
    (∀ call ∈ (commentHandler body rid censorResp storeResp).2,
        call.requestID = rid) ∧
    (newsDetailHandler newsID rid listResp).1
        = (newsDetailHandler newsID rid2 listResp).1 ∧
    (∀ call ∈ (newsDetailHandler newsID rid listResp).2, call.requestID = rid) ∧
    (header ≠ "" → effectiveRequestID header fresh = header) ∧
    effectiveRequestID "" fresh = fresh := by
  refine ⟨?_, ?_, ?_, ?_, ?_, ?_, ?_⟩
  · cases body with
    | none => rfl
    | some comment =>
      unfold commentHandler
      by_cases hval : validateCommentWithCensorService censorResp
      · by_cases hsave : saveCommentToService storeResp
        · simp [hval, hsave]
        · simp [hval, hsave]
      · simp [hval]
  · cases body with
    | none => rfl
    | some comment =>
      unfold commentHandler
      by_cases hval : validateCommentWithCensorService censorResp
      · by_cases hsave : saveCommentToService storeResp
        · simp [hval, hsave]
        · simp [hval, hsave]
      · simp [hval]
  · cases body with
    | none => intro call hcall; simp [commentHandler] at hcall
    | some comment =>
      unfold commentHandler
      by_cases hval : validateCommentWithCensorService censorResp
      · by_cases hsave : saveCommentToService storeResp
        · simp [hval, hsave]
        · simp [hval, hsave]
      · simp [hval]
  · unfold newsDetailHandler
    cases getCommentsForNews listResp with
    | none => rfl
    | some comments => rfl
  · unfold newsDetailHandler
    cases getCommentsForNews listResp with
    | none =>
      intro call hcall
      simp at hcall
      rw [hcall]
    | some comments =>
      intro call hcall
      simp at hcall
      rw [hcall]
  · intro hne
    simp [effectiveRequestID, hne]
  · rfl

/- ===================== Claim theorem: the create race ===================== -/

/-- A first create request arriving concurrently. -/
def raceReq1 : CreateCommentRequest := ⟨1, none, [97]⟩

/-- A second create request arriving concurrently. -/
def raceReq2 : CreateCommentRequest := ⟨1, none, [98]⟩

/-- Claim C9, evaluated on the code as written: the comment service takes
no lock around reading `nextID`, appending, and incrementing, so the
interleaving in which both in-flight creates read the counter before
either increments it hands out the duplicate ids 1 and 1 — not the
claimed duplicate-free 1 and 2 — while a fully serialized run of the same
two requests does produce ids 1 and 2. -/
theorem C9_unsynchronized_creates_duplicate_ids :
    ((runSchedule [0, 1, 0, 0, 1, 1] initialStore
        [⟨raceReq1, 0, 0⟩, ⟨raceReq2, 0, 0⟩]).1.comments.map Comment.id = [1, 1]) ∧
    ((runSchedule [0, 1, 0, 0, 1, 1] initialStore
        [⟨raceReq1, 0, 0⟩, ⟨raceReq2, 0, 0⟩]).1.comments.map Comment.id ≠ [1, 2]) ∧
    ¬ ((runSchedule [0, 1, 0, 0, 1, 1] initialStore
        [⟨raceReq1, 0, 0⟩, ⟨raceReq2, 0, 0⟩]).1.comments.map Comment.id).Nodup ∧
    ((runSchedule [0, 0, 0, 1, 1, 1] initialStore
        [⟨raceReq1, 0, 0⟩, ⟨raceReq2, 0, 0⟩]).1.comments.map Comment.id = [1, 2]) ∧
    (runCreates [raceReq1, raceReq2] initialStore).1 = [1, 2] := by
  refine ⟨by decide, by decide, by decide, by decide, by decide⟩

/-- A small populated store used to exercise the list-by-news theorem. -/
def demoStore : StoreState :=
  ⟨[⟨1, 1, none, [97]⟩, ⟨2, 2, none, [98]⟩, ⟨3, 1, none, [99]⟩], 4⟩

/-- Claim C4 witness: on a store holding comments under news keys 1, 2, 1,
listing news key 1 answers 200 with exactly the two matching comments in
insertion order. -/
theorem C4_witness :
    getCommentsHandler (NewsIDParam.valid 1) demoStore
      = (200, some [⟨1, 1, none, [97]⟩, ⟨3, 1, none, [99]⟩]) := by
  have h := (C4_listByNews_returns_matching_in_order 1 demoStore []).1
  rw [h]
  decide

/-- Claim C8 witness: at a concrete request, two runs differing only in
the request id produce the same response, the non-empty inbound header is
kept, and the empty header is replaced by the fresh token. -/
theorem C8_witness :
    (commentHandler (some ⟨0, 1, none, [104]⟩) "r1" (HttpResult.response 200 ())
        (HttpResult.response 200 7)).1
      = (commentHandler (some ⟨0, 1, none, [104]⟩) "r2" (HttpResult.response 200 ())
        (HttpResult.response 200 7)).1 ∧
    effectiveRequestID "abc" "fresh" = "abc" ∧
    effectiveRequestID "" "fresh" = "fresh" := by
  have h := C8_request_id_never_affects_control_flow (some ⟨0, 1, none, [104]⟩)
    "r1" "r2" (HttpResult.response 200 ()) (HttpResult.response 200 7)
    1 HttpResult.netFail "abc" "fresh"
  exact ⟨h.1, h.2.2.2.2.2.1 (by decide), h.2.2.2.2.2.2⟩
